import Mathlib

/-!
Verification of the RNAcommender core: the per-RNA batch construction in
rnacommender/data.py (TrainDataset.load, PredictDataset.load) and the
factorization model in rnacommender/model.py (Model.__init__: forward pass,
regularized cost, SGD update, test and predict functions).

Data-side conventions: feature matrices are lists of labelled columns over ℚ;
a NaN entry of the interaction matrix is Option.none.  The two uses of
numpy randomness in TrainDataset.load (np.random.permutation inside a batch,
np.random.shuffle of the batch list) are modelled as explicit index lists,
quantified over all permutations of the relevant range.  The integer division
len(Y.index)/10 in the progress reporting is Nat division, and the Python
ZeroDivisionError raised by n % 0 is an Except.error.
-/

namespace RNAC

variable {P R : Type}

/-- One training example: protein feature row, RNA feature row, label.
Mirrors the triple (p[index], r[index], i[index]) filled by
TrainDataset.load. -/
abbrev Row : Type := List ℚ × List ℚ × ℚ

/-- The in-memory training data of a TrainDataset after construction:
column labels of Y (proteins), index labels of Y (rnas), the interaction
matrix Y with none encoding NaN, and the two feature stores. -/
structure TrainData (P R : Type) where
  proteins : List P
  rnas : List R
  Y : R → P → Option ℚ
  Fp : P → List ℚ
  Fr : R → List ℚ

/-- The inner loop of TrainDataset.load over self.Y.columns: skip NaN cells,
otherwise append (Fp[protein], Fr[rna], Y[protein][rna]) at the running
index. -/
def fillBatch (d : TrainData P R) (rna : R) : List Row :=
  d.proteins.foldl (fun acc pr =>
    match d.Y rna pr with
    | none => acc
    | some v => acc ++ [(d.Fp pr, d.Fr rna, v)]) []

/-- num_examples of TrainDataset.load: self.Y.loc[rna].count().sum(), the
number of non-NaN cells of the row. -/
def numExamples (d : TrainData P R) (rna : R) : Nat :=
  d.proteins.countP (fun pr => (d.Y rna pr).isSome)

/-- The non-missing cells of one interaction row, in column order, each
paired with the matching feature vectors and its label. -/
def labeledCells (d : TrainData P R) (rna : R) : List Row :=
  d.proteins.filterMap (fun pr =>
    (d.Y rna pr).map (fun v => (d.Fp pr, d.Fr rna, v)))

/-- Reindexing a list by an index list, as in p[perm] for a numpy index
array perm. -/
def permuteBy (σ : List Nat) (xs : List α) : List α :=
  σ.filterMap (fun j => xs[j]?)

/-- The batch TrainDataset.load builds for one RNA: the filled arrays
reindexed by perm = np.random.permutation(range(num_examples)), modelled by
the explicit index list σ. -/
def buildBatch (d : TrainData P R) (σ : List Nat) (rna : R) : List Row :=
  permuteBy σ (fillBatch d rna)

/-- Accumulated num_pos of TrainDataset.load: labels with i[index] > 0
count as positive. -/
def numPos (d : TrainData P R) : Nat :=
  (d.rnas.flatMap (fun rna => fillBatch d rna)).countP (fun t => decide (0 < t.2.2))

/-- Accumulated num_neg of TrainDataset.load: labels not greater than 0
count as negative. -/
def numNeg (d : TrainData P R) : Nat :=
  (d.rnas.flatMap (fun rna => fillBatch d rna)).countP (fun t => decide (¬ 0 < t.2.2))

/-- The enumerated loop of TrainDataset.load.  At every iteration Python
evaluates n % (len(self.Y.index) / 10); when the integer division yields 0
this raises ZeroDivisionError, modelled as Except.error.  Otherwise the
batch for the current RNA is appended.  σs gives the intra-batch index
permutation drawn at iteration n. -/
def loadLoop (d : TrainData P R) (σs : Nat → List Nat) :
    Nat → List R → Except Unit (List (List Row))
  | _, [] => Except.ok []
  | n, rna :: rest =>
    if d.rnas.length / 10 = 0 then Except.error ()
    else
      match loadLoop d σs (n + 1) rest with
      | Except.error e => Except.error e
      | Except.ok tail => Except.ok (buildBatch d (σs n) rna :: tail)

/-- TrainDataset.load: run the per-RNA loop over self.Y.index, then shuffle
the list of batches by the seeded np.random.shuffle, modelled by the index
list τ; return the dataset together with num_pos, num_neg and num_batches. -/
def trainLoad (d : TrainData P R) (σs : Nat → List Nat) (τ : List Nat) :
    Except Unit (List (List Row) × Nat × Nat × Nat) :=
  match loadLoop d σs 0 d.rnas with
  | Except.error e => Except.error e
  | Except.ok batches =>
      Except.ok (permuteBy τ batches, numPos d, numNeg d, batches.length)

theorem fillBatch_aux (d : TrainData P R) (rna : R) (l : List P) (acc : List Row) :
    l.foldl (fun acc pr =>
      match d.Y rna pr with
      | none => acc
      | some v => acc ++ [(d.Fp pr, d.Fr rna, v)]) acc
    = acc ++ l.filterMap (fun pr =>
        (d.Y rna pr).map (fun v => (d.Fp pr, d.Fr rna, v))) := by
  induction l generalizing acc with
  | nil => simp
  | cons hd tl ih =>
      cases h : d.Y rna hd with
      | none => simp [List.foldl_cons, h, List.filterMap_cons, ih]
      | some v => simp [List.foldl_cons, h, List.filterMap_cons, ih]

theorem fillBatch_eq_labeledCells (d : TrainData P R) (rna : R) :
    fillBatch d rna = labeledCells d rna := by
  unfold fillBatch labeledCells
  rw [fillBatch_aux]
  simp

theorem labeledCells_length (d : TrainData P R) (rna : R) :
    (labeledCells d rna).length = numExamples d rna := by
  unfold labeledCells numExamples
  induction d.proteins with
  | nil => rfl
  | cons hd tl ih =>
      cases h : d.Y rna hd with
      | none => simp [List.filterMap_cons, h, List.countP_cons, ih]
      | some v => simp [List.filterMap_cons, h, List.countP_cons, ih]

theorem filterMap_getElem_range (xs : List α) :
    (List.range xs.length).filterMap (fun j => xs[j]?) = xs := by
  induction xs with
  | nil => rfl
  | cons hd tl ih =>
      rw [List.length_cons, List.range_succ_eq_map, List.filterMap_cons,
        List.filterMap_map]
      have hcomp : ((fun j => (hd :: tl)[j]?) ∘ Nat.succ) = fun j => tl[j]? := by
        funext j
        simp
      simp only [List.getElem?_cons_zero]
      rw [hcomp, ih]

theorem permuteBy_perm (σ : List Nat) (xs : List α)
    (h : σ.Perm (List.range xs.length)) : (permuteBy σ xs).Perm xs := by
  have h2 := h.filterMap (fun j => xs[j]?)
  rwa [filterMap_getElem_range] at h2

theorem loadLoop_ok (d : TrainData P R) (σs : Nat → List Nat)
    (hdiv : d.rnas.length / 10 ≠ 0) (n : Nat) (l : List R) :
    ∃ bs, loadLoop d σs n l = Except.ok bs ∧ bs.length = l.length := by
  induction l generalizing n with
  | nil => exact ⟨[], rfl, rfl⟩
  | cons hd tl ih =>
      obtain ⟨bs, hbs, hlen⟩ := ih (n + 1)
      refine ⟨buildBatch d (σs n) hd :: bs, ?_, ?_⟩
      · simp [loadLoop, hdiv, hbs]
      · simp [hlen]

theorem loadLoop_length (d : TrainData P R) (σs : Nat → List Nat)
    (n : Nat) (l : List R) (bs : List (List Row))
    (h : loadLoop d σs n l = Except.ok bs) : bs.length = l.length := by
  induction l generalizing n bs with
  | nil =>
      simp only [loadLoop] at h
      cases h
      rfl
  | cons hd tl ih =>
      simp only [loadLoop] at h
      by_cases hdiv : d.rnas.length / 10 = 0
      · simp [hdiv] at h
      · rw [if_neg hdiv] at h
        cases htl : loadLoop d σs (n + 1) tl with
        | error e => rw [htl] at h; cases h
        | ok tail =>
            rw [htl] at h
            cases h
            simp [ih (n + 1) tail htl]

/-- One prediction example as filled by the inner loop of
PredictDataset.load: protein feature row, protein name, RNA feature row,
RNA name. -/
abbrev PRow (P R : Type) : Type := List ℚ × P × List ℚ × R

/-- Column selection self.Fp[self.to_predict] performed by the
PredictDataset constructor: None keeps the store unchanged, a list selects
the named columns in list order, and a missing name fails (pandas KeyError). -/
def restrictFp [DecidableEq P] (Fp : List (P × List ℚ)) :
    Option (List P) → Option (List (P × List ℚ))
  | none => some Fp
  | some names => names.mapM (fun nm =>
      (Fp.find? (fun c => decide (c.1 = nm))).map (fun c => (nm, c.2)))

/-- The nested loop of PredictDataset.load: for protein in Fp.columns, for
rna in Fr.columns, fill the four parallel arrays at the running index. -/
def predictRows (Fp : List (P × List ℚ)) (Fr : List (R × List ℚ)) :
    List (PRow P R) :=
  Fp.flatMap (fun pc => Fr.map (fun rc => (pc.2, pc.1, rc.2, rc.1)))

/-- PredictDataset.load: the four parallel arrays (p, p_names, r, r_names)
returned to the caller. -/
def predictLoad (Fp : List (P × List ℚ)) (Fr : List (R × List ℚ)) :
    List (List ℚ) × List P × List (List ℚ) × List R :=
  (  (predictRows Fp Fr).map (fun t => t.1)
   , (predictRows Fp Fr).map (fun t => t.2.1)
   , (predictRows Fp Fr).map (fun t => t.2.2.1)
   , (predictRows Fp Fr).map (fun t => t.2.2.2))

theorem flatMap_map_length (l1 : List α) (l2 : List β) (f : α → β → γ) :
    (l1.flatMap (fun a => l2.map (f a))).length = l1.length * l2.length := by
  induction l1 with
  | nil => simp
  | cons hd tl ih =>
      simp only [List.flatMap_cons, List.length_append, List.length_map, ih,
        List.length_cons]
      rw [Nat.succ_mul, Nat.add_comm]

theorem flatMap_map_getElem (l1 : List α) (l2 : List β) (f : α → β → γ)
    (i j : Nat) (hi : i < l1.length) (hj : j < l2.length) :
    (l1.flatMap (fun a => l2.map (f a)))[i * l2.length + j]?
      = some (f (l1.get ⟨i, hi⟩) (l2.get ⟨j, hj⟩)) := by
  induction l1 generalizing i with
  | nil => exact absurd hi (Nat.not_lt_zero i)
  | cons hd tl ih =>
      cases i with
      | zero =>
          rw [List.flatMap_cons]
          have hjlen : 0 * l2.length + j < (l2.map (f hd)).length := by
            simpa using hj
          rw [List.getElem?_append, if_pos hjlen]
          simp [hj]
      | succ i2 =>
          rw [List.flatMap_cons]
          have harith : (i2 + 1) * l2.length + j
              = (l2.map (f hd)).length + (i2 * l2.length + j) := by
            simp only [List.length_map]
            rw [Nat.succ_mul]
            omega
          rw [harith, List.getElem?_append, if_neg (by omega)]
          simp only [Nat.add_sub_cancel_left]
          have hi2 : i2 < tl.length := by
            simpa using hi
          rw [ih i2 hi2]
          rfl

theorem predictRows_length (Fp : List (P × List ℚ)) (Fr : List (R × List ℚ)) :
    (predictRows Fp Fr).length = Fp.length * Fr.length := by
  unfold predictRows
  exact flatMap_map_length Fp Fr _

theorem predictRows_getElem (Fp : List (P × List ℚ)) (Fr : List (R × List ℚ))
    (i j : Nat) (hi : i < Fp.length) (hj : j < Fr.length) :
    (predictRows Fp Fr)[i * Fr.length + j]?
      = some ((Fp.get ⟨i, hi⟩).2, (Fp.get ⟨i, hi⟩).1,
              (Fr.get ⟨j, hj⟩).2, (Fr.get ⟨j, hj⟩).1) := by
  unfold predictRows
  exact flatMap_map_getElem Fp Fr _ i j hi hj

theorem loadLoop_error_cons (d : TrainData P R) (σs : Nat → List Nat)
    (hdiv : d.rnas.length / 10 = 0) (n : Nat) (a : R) (l : List R) :
    loadLoop d σs n (a :: l) = Except.error () := by
  simp [loadLoop, hdiv]

/-- C1: for every RNA, the batch built by TrainDataset.load is a permutation
of the list holding exactly one row per non-missing cell of that RNA's
interaction row, each row carrying the matching protein feature vector, the
RNA's feature vector and the cell's label; the batch size is the number of
non-missing cells, so missing cells contribute no row. -/
theorem C1_train_batch_covers_labeled_cells (d : TrainData P R) (rna : R)
    (σ : List Nat) (hσ : σ.Perm (List.range (numExamples d rna))) :
    (buildBatch d σ rna).Perm (labeledCells d rna)
      ∧ (buildBatch d σ rna).length = numExamples d rna := by
  have hlen2 : (fillBatch d rna).length = numExamples d rna := by
    rw [fillBatch_eq_labeledCells]
    exact labeledCells_length d rna
  have hperm : (buildBatch d σ rna).Perm (fillBatch d rna) :=
    permuteBy_perm σ _ (by rw [hlen2]; exact hσ)
  constructor
  · rw [← fillBatch_eq_labeledCells]
    exact hperm
  · rw [hperm.length_eq, hlen2]

/-- A concrete training store with three proteins, one RNA, and one missing
cell, used to instantiate the batch-construction theorems. -/
def dSmall : TrainData ℕ ℕ where
  proteins := [0, 1, 2]
  rnas := [0]
  Y := fun _ p => if p = 1 then none else some (if p = 0 then 1 else 0)
  Fp := fun p => [(p : ℚ)]
  Fr := fun r => [(r : ℚ)]

theorem C1_train_batch_covers_labeled_cells_witness :
    ([1, 0] : List Nat).Perm (List.range (numExamples dSmall 0))
      ∧ ((buildBatch dSmall [1, 0] 0).Perm (labeledCells dSmall 0)
        ∧ (buildBatch dSmall [1, 0] 0).length = numExamples dSmall 0) :=
  ⟨by decide, C1_train_batch_covers_labeled_cells dSmall 0 [1, 0] (by decide)⟩

/-- A concrete training store whose single RNA row is entirely missing,
embedded in an interaction matrix with ten RNAs. -/
def dAllMissing : TrainData ℕ ℕ where
  proteins := [0, 1]
  rnas := List.range 10
  Y := fun _ _ => none
  Fp := fun _ => []
  Fr := fun _ => []

/-- C7: an RNA whose interaction row is entirely missing is not an error:
its batch is empty, it contributes no example to the positive and negative
counters, and (whenever the progress divisor is nonzero, see C6) the whole
load still returns normally. -/
theorem C7_all_missing_rna_gives_empty_batch (d : TrainData P R) (rna : R)
    (σ : List Nat) (σs : Nat → List Nat) (τ : List Nat)
    (hall : ∀ p ∈ d.proteins, d.Y rna p = none) :
    buildBatch d σ rna = []
      ∧ numExamples d rna = 0
      ∧ (fillBatch d rna).countP (fun t => decide (0 < t.2.2)) = 0
      ∧ (fillBatch d rna).countP (fun t => decide (¬ 0 < t.2.2)) = 0
      ∧ (d.rnas.length / 10 ≠ 0 → ∃ out, trainLoad d σs τ = Except.ok out) := by
  have hfe : fillBatch d rna = [] := by
    rw [fillBatch_eq_labeledCells]
    unfold labeledCells
    exact List.filterMap_eq_nil_iff.mpr (fun p hp => by rw [hall p hp]; rfl)
  refine ⟨?_, ?_, ?_, ?_, ?_⟩
  · unfold buildBatch permuteBy
    rw [hfe]
    simp
  · unfold numExamples
    exact List.countP_eq_zero.mpr (fun p hp => by rw [hall p hp]; simp)
  · rw [hfe]; rfl
  · rw [hfe]; rfl
  · intro hdiv
    obtain ⟨bs, hbs, _⟩ := loadLoop_ok d σs hdiv 0 d.rnas
    exact ⟨_, by unfold trainLoad; rw [hbs]⟩

theorem C7_all_missing_rna_gives_empty_batch_witness :
    (∀ p ∈ dAllMissing.proteins, dAllMissing.Y 0 p = none)
      ∧ (buildBatch dAllMissing [] 0 = []
        ∧ numExamples dAllMissing 0 = 0
        ∧ (fillBatch dAllMissing 0).countP (fun t => decide (0 < t.2.2)) = 0
        ∧ (fillBatch dAllMissing 0).countP (fun t => decide (¬ 0 < t.2.2)) = 0
        ∧ (dAllMissing.rnas.length / 10 ≠ 0 →
            ∃ out, trainLoad dAllMissing (fun _ => []) [] = Except.ok out)) :=
  ⟨by decide,
   C7_all_missing_rna_gives_empty_batch dAllMissing 0 [] (fun _ => []) []
     (by decide)⟩

/-- A training store whose interaction matrix has no RNA at all. -/
def dNoRnas : TrainData ℕ ℕ where
  proteins := [0]
  rnas := []
  Y := fun _ _ => none
  Fp := fun _ => []
  Fr := fun _ => []

/-- C6 counterexample: an interaction matrix with zero RNAs has fewer than
ten rows, yet TrainDataset.load completes normally, because the per-RNA loop
body that evaluates n % (len(index)/10) never runs. -/
theorem C6_counterexample_zero_rnas_load_completes :
    dNoRnas.rnas.length < 10
      ∧ trainLoad dNoRnas (fun _ => []) [] = Except.ok ([], 0, 0, 0) :=
  ⟨by decide, rfl⟩

/-- C6 amended: for every interaction matrix with at least one and fewer
than ten RNAs, the progress step of TrainDataset.load divides the RNA count
by ten, reaching an undefined modulo-by-zero, so load does not complete
normally on such inputs. -/
theorem C6_small_nonempty_matrix_load_errors (d : TrainData P R)
    (σs : Nat → List Nat) (τ : List Nat)
    (h1 : 1 ≤ d.rnas.length) (h2 : d.rnas.length < 10) :
    trainLoad d σs τ = Except.error () := by
  have hdiv : d.rnas.length / 10 = 0 := Nat.div_eq_of_lt h2
  cases hr : d.rnas with
  | nil =>
      rw [hr] at h1
      simp at h1
  | cons a l =>
      unfold trainLoad
      rw [hr, loadLoop_error_cons d σs hdiv 0 a l]

/-- A training store with exactly one RNA. -/
def dOneRna : TrainData ℕ ℕ where
  proteins := [0]
  rnas := [0]
  Y := fun _ _ => some 1
  Fp := fun _ => []
  Fr := fun _ => []

theorem C6_small_nonempty_matrix_load_errors_witness :
    1 ≤ dOneRna.rnas.length
      ∧ dOneRna.rnas.length < 10
      ∧ trainLoad dOneRna (fun _ => []) [] = Except.error () :=
  ⟨by decide, by decide,
   C6_small_nonempty_matrix_load_errors dOneRna (fun _ => []) []
     (by decide) (by decide)⟩

/-- C10: whenever TrainDataset.load returns, it returns exactly one batch
per RNA: the shuffled dataset list and the reported batch count both equal
the number of rows of the interaction matrix, for any permutation the
seeded shuffle may pick. -/
theorem C10_one_batch_per_rna (d : TrainData P R) (σs : Nat → List Nat)
    (τ : List Nat) (out : List (List Row) × Nat × Nat × Nat)
    (hτ : τ.Perm (List.range d.rnas.length))
    (hok : trainLoad d σs τ = Except.ok out) :
    out.1.length = d.rnas.length ∧ out.2.2.2 = d.rnas.length := by
  unfold trainLoad at hok
  cases hlp : loadLoop d σs 0 d.rnas with
  | error e =>
      rw [hlp] at hok
      cases hok
  | ok batches =>
      rw [hlp] at hok
      cases hok
      have hblen : batches.length = d.rnas.length :=
        loadLoop_length d σs 0 d.rnas batches hlp
      constructor
      · show (permuteBy τ batches).length = d.rnas.length
        have hp := permuteBy_perm τ batches (by rw [hblen]; exact hτ)
        rw [hp.length_eq, hblen]
      · exact hblen

theorem C10_one_batch_per_rna_witness :
    (List.range 10).Perm (List.range dAllMissing.rnas.length)
      ∧ trainLoad dAllMissing (fun _ => []) (List.range 10)
          = Except.ok (List.replicate 10 [], 0, 0, 10)
      ∧ ((List.replicate 10 ([] : List Row), 0, 0, (10 : Nat)).1.length
            = dAllMissing.rnas.length
        ∧ (List.replicate 10 ([] : List Row), 0, 0, (10 : Nat)).2.2.2
            = dAllMissing.rnas.length) :=
  ⟨by decide, by rfl,
   C10_one_batch_per_rna dAllMissing (fun _ => []) (List.range 10)
     (List.replicate 10 [], 0, 0, 10) (by decide) (by rfl)⟩

/-- C5: PredictDataset.load is a full cross join.  For the protein store
left after the optional restriction list is applied and the RNA store, all
four returned arrays have exactly p·r entries, and the entry at position
i·r + j (protein-major, RNA-minor, no shuffling) is the feature row of
protein i and RNA j, with the two name arrays aligned positionally with the
feature rows. -/
theorem C5_predict_load_cross_join {P R : Type} [DecidableEq P]
    (opt : Option (List P)) (Fp0 Fp : List (P × List ℚ))
    (Fr : List (R × List ℚ)) (hres : restrictFp Fp0 opt = some Fp)
    (i j : ℕ) (hi : i < Fp.length) (hj : j < Fr.length) :
    (predictLoad Fp Fr).1.length = Fp.length * Fr.length
      ∧ (predictLoad Fp Fr).2.1.length = Fp.length * Fr.length
      ∧ (predictLoad Fp Fr).2.2.1.length = Fp.length * Fr.length
      ∧ (predictLoad Fp Fr).2.2.2.length = Fp.length * Fr.length
      ∧ (predictLoad Fp Fr).1[i * Fr.length + j]? = some (Fp.get ⟨i, hi⟩).2
      ∧ (predictLoad Fp Fr).2.1[i * Fr.length + j]? = some (Fp.get ⟨i, hi⟩).1
      ∧ (predictLoad Fp Fr).2.2.1[i * Fr.length + j]? = some (Fr.get ⟨j, hj⟩).2
      ∧ (predictLoad Fp Fr).2.2.2[i * Fr.length + j]? = some (Fr.get ⟨j, hj⟩).1 := by
  unfold predictLoad
  simp [List.length_map, predictRows_length, List.getElem?_map,
    predictRows_getElem Fp Fr i j hi hj]

/-- Two labelled protein feature columns for the cross-join scenario. -/
def pStore : List (ℕ × List ℚ) := [(0, [1]), (1, [2])]

/-- Three labelled RNA feature columns for the cross-join scenario. -/
def rStore : List (ℕ × List ℚ) := [(10, [5]), (11, [6]), (12, [7])]

theorem C5_predict_load_cross_join_witness :
    restrictFp pStore none = some pStore
      ∧ 1 < pStore.length ∧ 2 < rStore.length
      ∧ ((predictLoad pStore rStore).1.length = pStore.length * rStore.length
        ∧ (predictLoad pStore rStore).2.1.length = pStore.length * rStore.length
        ∧ (predictLoad pStore rStore).2.2.1.length = pStore.length * rStore.length
        ∧ (predictLoad pStore rStore).2.2.2.length = pStore.length * rStore.length
        ∧ (predictLoad pStore rStore).1[1 * rStore.length + 2]?
            = some (pStore.get ⟨1, by decide⟩).2
        ∧ (predictLoad pStore rStore).2.1[1 * rStore.length + 2]?
            = some (pStore.get ⟨1, by decide⟩).1
        ∧ (predictLoad pStore rStore).2.2.1[1 * rStore.length + 2]?
            = some (rStore.get ⟨2, by decide⟩).2
        ∧ (predictLoad pStore rStore).2.2.2[1 * rStore.length + 2]?
            = some (rStore.get ⟨2, by decide⟩).1) :=
  ⟨rfl, by decide, by decide,
   C5_predict_load_cross_join none pStore pStore rStore rfl 1 2
     (by decide) (by decide)⟩

end RNAC

namespace RNAC.Model

noncomputable section

/-- T.nnet.sigmoid. -/
def sigmoid (x : ℝ) : ℝ := 1 / (1 + Real.exp (-x))

theorem sigmoid_pos (x : ℝ) : 0 < sigmoid x := by
  unfold sigmoid
  positivity

theorem sigmoid_lt_one (x : ℝ) : sigmoid x < 1 := by
  unfold sigmoid
  rw [div_lt_one (by positivity)]
  have h := Real.exp_pos (-x)
  linarith

/-- The five shared parameter tensors of Model: Ap (sp×n), bp (sp),
Ar (sr×m), br (sr), B (sp×sr). -/
@[ext]
structure Params (n m sp sr : ℕ) where
  Ap : Fin sp → Fin n → ℝ
  bp : Fin sp → ℝ
  Ar : Fin sr → Fin m → ℝ
  br : Fin sr → ℝ
  B : Fin sp → Fin sr → ℝ

variable {n m sp sr k : ℕ}

/-- The all-zero parameter setting, used to say that a gradient is nonzero. -/
def paramsZero (n m sp sr : ℕ) : Params n m sp sr where
  Ap := fun _ _ => 0
  bp := fun _ => 0
  Ar := fun _ _ => 0
  br := fun _ => 0
  B := fun _ _ => 0

/-- Latent space for proteins: P = sigmoid(Fp·Apᵀ + bp), per example e and
latent coordinate i. -/
def latentP (θ : Params n m sp sr) (Fp : Fin k → Fin n → ℝ) :
    Fin k → Fin sp → ℝ :=
  fun e i => sigmoid ((∑ j, Fp e j * θ.Ap i j) + θ.bp i)

/-- Latent space for RNAs: R = sigmoid(Fr·Arᵀ + br). -/
def latentR (θ : Params n m sp sr) (Fr : Fin k → Fin m → ℝ) :
    Fin k → Fin sr → ℝ :=
  fun e i => sigmoid ((∑ j, Fr e j * θ.Ar i j) + θ.br i)

/-- Predicted output y_hat = sigmoid(sum(dot(P,B) * R, axis=1)). -/
def yhat (θ : Params n m sp sr) (Fp : Fin k → Fin n → ℝ)
    (Fr : Fin k → Fin m → ℝ) : Fin k → ℝ :=
  fun e => sigmoid (∑ j, (∑ i, latentP θ Fp e i * θ.B i j) * latentR θ Fr e j)

/-- The L2 norm of a matrix as computed by theano .norm(2): the square root
of the sum of the squared entries (Frobenius norm). -/
def frobM (M : Fin a → Fin b → ℝ) : ℝ := Real.sqrt (∑ i, ∑ j, (M i j) ^ 2)

/-- The L2 norm of a vector as computed by theano .norm(2). -/
def frobV (v : Fin a → ℝ) : ℝ := Real.sqrt (∑ i, (v i) ^ 2)

/-- Model.__init__._regularization: the per-group norms divided by the
per-group element counts, averaged over the three groups. -/
def regularization (θ : Params n m sp sr) : ℝ :=
  ((frobM θ.Ap + frobV θ.bp) / (sp * n + sp)
    + (frobM θ.Ar + frobV θ.br) / (sr * m + sr)
    + frobM θ.B / (sp * sr)) / 3

/-- cost_ = (T.sqr(y - y_hat)).mean(): mean squared error over the batch. -/
def mseCost (yv yp : Fin k → ℝ) : ℝ := (∑ e, (yv e - yp e) ^ 2) / k

/-- cost = cost_ + lambda_reg * _regularization(). -/
def cost (θ : Params n m sp sr) (Fp : Fin k → Fin n → ℝ)
    (Fr : Fin k → Fin m → ℝ) (yv : Fin k → ℝ) (lam : ℝ) : ℝ :=
  mseCost yv (yhat θ Fp Fr) + lam * regularization θ

/-- The SGD updates of Model.train: each tensor becomes itself minus
learning_rate times its gradient g (produced by T.grad on the cost). -/
def trainUpdate (lr : ℝ) (θ g : Params n m sp sr) : Params n m sp sr where
  Ap := fun i j => θ.Ap i j - lr * g.Ap i j
  bp := fun i => θ.bp i - lr * g.bp i
  Ar := fun i j => θ.Ar i j - lr * g.Ar i j
  br := fun i => θ.br i - lr * g.br i
  B := fun i j => θ.B i j - lr * g.B i j

/-- Model.test: outputs (y_hat, cost) and, having no updates clause, leaves
the shared parameter state unchanged. -/
def testStep (θ : Params n m sp sr) (Fp : Fin k → Fin n → ℝ)
    (Fr : Fin k → Fin m → ℝ) (yv : Fin k → ℝ) (lam : ℝ) :
    ((Fin k → ℝ) × ℝ) × Params n m sp sr :=
  ((yhat θ Fp Fr, cost θ Fp Fr yv lam), θ)

/-- One entry of the seeded initialization: (.5 - u) * irange for the draw
u taken at position idx of the seeded numpy stream. -/
def initEntry (rand : ℕ → ℝ) (irange : ℝ) (idx : ℕ) : ℝ :=
  (1 / 2 - rand idx) * irange

/-- Model.__init__ initialization: the five tensors consume the seeded
uniform-[0,1) stream in order (Ap row-major, then bp, Ar, br, B), exactly as
the successive np.random.rand calls after np.random.seed(seed). -/
def initParams (rand : ℕ → ℝ) (irange : ℝ) (n m sp sr : ℕ) :
    Params n m sp sr where
  Ap := fun i j => initEntry rand irange (n * i.1 + j.1)
  bp := fun i => initEntry rand irange (sp * n + i.1)
  Ar := fun i j => initEntry rand irange (sp * n + sp + (m * i.1 + j.1))
  br := fun i => initEntry rand irange (sp * n + sp + sr * m + i.1)
  B := fun i j => initEntry rand irange (sp * n + sp + sr * m + sr + (sr * i.1 + j.1))

theorem initEntry_bound (rand : ℕ → ℝ) (irange : ℝ) (idx : ℕ)
    (hirange : 0 ≤ irange) (h0 : 0 ≤ rand idx) (h1 : rand idx < 1) :
    -(irange / 2) ≤ initEntry rand irange idx
      ∧ initEntry rand irange idx ≤ irange / 2 := by
  unfold initEntry
  constructor
  · nlinarith
  · nlinarith

/-- Average of three reals, as in the spec phrase "the average, over the
three parameter groups". -/
def avg3 (x y z : ℝ) : ℝ := (x + y + z) / 3

/-- The mean squared error between the predictions and the labels, written
from the spec wording. -/
def specMSE (yv yp : Fin k → ℝ) : ℝ := (∑ e, (yp e - yv e) ^ 2) / k

/-- The spec reading of the regularization term: the average over the three
parameter groups of the L2 norm of the group (the summed theano norms of
its members) divided by the total element count of the group. -/
def specRegAvg (θ : Params n m sp sr) : ℝ :=
  avg3 ((frobM θ.Ap + frobV θ.bp) / (sp * n + sp))
    ((frobM θ.Ar + frobV θ.br) / (sr * m + sr))
    (frobM θ.B / (sp * sr))

/-- C2: the cost returned by train and test equals the mean squared error
between the per-example predictions and the labels, plus lambda_reg times
the average over the three parameter groups of the group norm divided by
the group element count. -/
theorem C2_cost_is_mse_plus_group_reg (θ : Params n m sp sr)
    (Fp : Fin k → Fin n → ℝ) (Fr : Fin k → Fin m → ℝ)
    (yv : Fin k → ℝ) (lam : ℝ) :
    cost θ Fp Fr yv lam
      = specMSE yv (yhat θ Fp Fr) + lam * specRegAvg θ := by
  unfold cost mseCost specMSE regularization specRegAvg avg3
  have hsum : (∑ e, (yv e - yhat θ Fp Fr e) ^ 2)
      = ∑ e, (yhat θ Fp Fr e - yv e) ^ 2 :=
    Finset.sum_congr rfl (fun e _ => by ring)
  rw [hsum]

/-- C4: every value the compiled predict function returns lies strictly
inside the open interval (0,1), for every finite batch of inputs. -/
theorem C4_predict_output_in_open_unit_interval (θ : Params n m sp sr)
    (Fp : Fin k → Fin n → ℝ) (Fr : Fin k → Fin m → ℝ) (e : Fin k) :
    0 < yhat θ Fp Fr e ∧ yhat θ Fp Fr e < 1 :=
  ⟨sigmoid_pos _, sigmoid_lt_one _⟩

/-- C8: the test function mutates none of the five parameter tensors, and
two calls with identical inputs and no intervening train call return the
identical (y_hat, cost) pair. -/
theorem C8_evaluate_pure_and_idempotent (θ : Params n m sp sr)
    (Fp : Fin k → Fin n → ℝ) (Fr : Fin k → Fin m → ℝ)
    (yv : Fin k → ℝ) (lam : ℝ) :
    (testStep θ Fp Fr yv lam).2 = θ
      ∧ testStep (testStep θ Fp Fr yv lam).2 Fp Fr yv lam
          = testStep θ Fp Fr yv lam :=
  ⟨rfl, rfl⟩

/-- The all-ones parameter setting on the smallest shapes, a concrete
nonzero gradient. -/
def gOne : Params 1 1 1 1 where
  Ap := fun _ _ => 1
  bp := fun _ => 1
  Ar := fun _ _ => 1
  br := fun _ => 1
  B := fun _ _ => 1

theorem gOne_ne_zero : gOne ≠ paramsZero 1 1 1 1 := by
  intro h
  have h2 := congrFun (congrFun (congrArg Params.Ap h) 0) 0
  norm_num [gOne, paramsZero] at h2

/-- C3 counterexample: with learning_rate 0, a train call leaves every
parameter tensor unchanged even though the gradient is nonzero, so the
claim as stated fails when the learning rate is zero. -/
theorem C3_counterexample_zero_learning_rate :
    gOne ≠ paramsZero 1 1 1 1
      ∧ trainUpdate 0 (paramsZero 1 1 1 1) gOne = paramsZero 1 1 1 1 := by
  refine ⟨gOne_ne_zero, ?_⟩
  ext <;> simp [trainUpdate, paramsZero]

/-- C3 amended: each train call sets every one of the five parameter
tensors to its previous value minus learning_rate times the gradient tensor
produced for the total cost (plain SGD, no momentum, clipping or adaptive
rates); consequently, whenever the learning rate is nonzero and the batch
gradient is nonzero, at least one parameter tensor changes across the
call. -/
theorem C3_train_is_plain_sgd_update (lr : ℝ) (θ g : Params n m sp sr)
    (hlr : lr ≠ 0) (hg : g ≠ paramsZero n m sp sr) :
    ((trainUpdate lr θ g).Ap = fun i j => θ.Ap i j - lr * g.Ap i j)
      ∧ ((trainUpdate lr θ g).bp = fun i => θ.bp i - lr * g.bp i)
      ∧ ((trainUpdate lr θ g).Ar = fun i j => θ.Ar i j - lr * g.Ar i j)
      ∧ ((trainUpdate lr θ g).br = fun i => θ.br i - lr * g.br i)
      ∧ ((trainUpdate lr θ g).B = fun i j => θ.B i j - lr * g.B i j)
      ∧ trainUpdate lr θ g ≠ θ := by
  have hc : ∀ {a b : ℝ}, a - lr * b = a → b = 0 := by
    intro a b hab
    have hmul : lr * b = 0 := by linarith
    rcases mul_eq_zero.mp hmul with h | h
    · exact absurd h hlr
    · exact h
  refine ⟨rfl, rfl, rfl, rfl, rfl, ?_⟩
  intro heq
  apply hg
  refine Params.ext ?_ ?_ ?_ ?_ ?_
  · funext i j
    exact hc (congrFun (congrFun (congrArg Params.Ap heq) i) j)
  · funext i
    exact hc (congrFun (congrArg Params.bp heq) i)
  · funext i j
    exact hc (congrFun (congrFun (congrArg Params.Ar heq) i) j)
  · funext i
    exact hc (congrFun (congrArg Params.br heq) i)
  · funext i j
    exact hc (congrFun (congrFun (congrArg Params.B heq) i) j)

theorem C3_train_is_plain_sgd_update_witness :
    (1 : ℝ) ≠ 0 ∧ gOne ≠ paramsZero 1 1 1 1
      ∧ (((trainUpdate 1 (paramsZero 1 1 1 1) gOne).Ap
            = fun i j => (paramsZero 1 1 1 1).Ap i j - 1 * gOne.Ap i j)
        ∧ ((trainUpdate 1 (paramsZero 1 1 1 1) gOne).bp
            = fun i => (paramsZero 1 1 1 1).bp i - 1 * gOne.bp i)
        ∧ ((trainUpdate 1 (paramsZero 1 1 1 1) gOne).Ar
            = fun i j => (paramsZero 1 1 1 1).Ar i j - 1 * gOne.Ar i j)
        ∧ ((trainUpdate 1 (paramsZero 1 1 1 1) gOne).br
            = fun i => (paramsZero 1 1 1 1).br i - 1 * gOne.br i)
        ∧ ((trainUpdate 1 (paramsZero 1 1 1 1) gOne).B
            = fun i j => (paramsZero 1 1 1 1).B i j - 1 * gOne.B i j)
        ∧ trainUpdate 1 (paramsZero 1 1 1 1) gOne ≠ paramsZero 1 1 1 1) :=
  ⟨one_ne_zero, gOne_ne_zero,
   C3_train_is_plain_sgd_update 1 (paramsZero 1 1 1 1) gOne one_ne_zero
     gOne_ne_zero⟩

/-- C9: construction is deterministic in the seed: two models built from
the same seeded draw stream with identical shapes and hyperparameters have
identical initial parameter tensors, every initial entry lies within
[-irange/2, +irange/2], and the first predict call on identical inputs
returns identical outputs. -/
theorem C9_seeded_init_deterministic_and_bounded
    (rand rand2 : ℕ → ℝ) (irange : ℝ) (n m sp sr : ℕ)
    (hstream : ∀ idx, rand idx = rand2 idx)
    (hirange : 0 ≤ irange)
    (hunit : ∀ idx, 0 ≤ rand idx ∧ rand idx < 1) :
    initParams rand irange n m sp sr = initParams rand2 irange n m sp sr
      ∧ (∀ i j, -(irange / 2) ≤ (initParams rand irange n m sp sr).Ap i j
          ∧ (initParams rand irange n m sp sr).Ap i j ≤ irange / 2)
      ∧ (∀ i, -(irange / 2) ≤ (initParams rand irange n m sp sr).bp i
          ∧ (initParams rand irange n m sp sr).bp i ≤ irange / 2)
      ∧ (∀ i j, -(irange / 2) ≤ (initParams rand irange n m sp sr).Ar i j
          ∧ (initParams rand irange n m sp sr).Ar i j ≤ irange / 2)
      ∧ (∀ i, -(irange / 2) ≤ (initParams rand irange n m sp sr).br i
          ∧ (initParams rand irange n m sp sr).br i ≤ irange / 2)
      ∧ (∀ i j, -(irange / 2) ≤ (initParams rand irange n m sp sr).B i j
          ∧ (initParams rand irange n m sp sr).B i j ≤ irange / 2)
      ∧ ∀ (kk : ℕ) (Fp : Fin kk → Fin n → ℝ) (Fr : Fin kk → Fin m → ℝ),
          yhat (initParams rand irange n m sp sr) Fp Fr
            = yhat (initParams rand2 irange n m sp sr) Fp Fr := by
  have hre : rand = rand2 := funext hstream
  subst hre
  refine ⟨rfl, ?_, ?_, ?_, ?_, ?_, fun kk Fp Fr => rfl⟩
  · intro i j
    exact initEntry_bound rand irange _ hirange (hunit _).1 (hunit _).2
  · intro i
    exact initEntry_bound rand irange _ hirange (hunit _).1 (hunit _).2
  · intro i j
    exact initEntry_bound rand irange _ hirange (hunit _).1 (hunit _).2
  · intro i
    exact initEntry_bound rand irange _ hirange (hunit _).1 (hunit _).2
  · intro i j
    exact initEntry_bound rand irange _ hirange (hunit _).1 (hunit _).2

/-- A concrete constant draw stream, standing for the seeded numpy stream. -/
def rHalf : ℕ → ℝ := fun _ => 1 / 2

theorem C9_seeded_init_deterministic_and_bounded_witness :
    (∀ idx, rHalf idx = rHalf idx) ∧ (0 : ℝ) ≤ 1
      ∧ (∀ idx, 0 ≤ rHalf idx ∧ rHalf idx < 1)
      ∧ (initParams rHalf 1 1 1 1 1 = initParams rHalf 1 1 1 1 1
        ∧ (∀ i j, -((1 : ℝ) / 2) ≤ (initParams rHalf 1 1 1 1 1).Ap i j
            ∧ (initParams rHalf 1 1 1 1 1).Ap i j ≤ 1 / 2)
        ∧ (∀ i, -((1 : ℝ) / 2) ≤ (initParams rHalf 1 1 1 1 1).bp i
            ∧ (initParams rHalf 1 1 1 1 1).bp i ≤ 1 / 2)
        ∧ (∀ i j, -((1 : ℝ) / 2) ≤ (initParams rHalf 1 1 1 1 1).Ar i j
            ∧ (initParams rHalf 1 1 1 1 1).Ar i j ≤ 1 / 2)
        ∧ (∀ i, -((1 : ℝ) / 2) ≤ (initParams rHalf 1 1 1 1 1).br i
            ∧ (initParams rHalf 1 1 1 1 1).br i ≤ 1 / 2)
        ∧ (∀ i j, -((1 : ℝ) / 2) ≤ (initParams rHalf 1 1 1 1 1).B i j
            ∧ (initParams rHalf 1 1 1 1 1).B i j ≤ 1 / 2)
        ∧ ∀ (kk : ℕ) (Fp : Fin kk → Fin 1 → ℝ) (Fr : Fin kk → Fin 1 → ℝ),
            yhat (initParams rHalf 1 1 1 1 1) Fp Fr
              = yhat (initParams rHalf 1 1 1 1 1) Fp Fr) :=
  ⟨fun _ => rfl, by norm_num,
   fun _ => ⟨by norm_num [rHalf], by norm_num [rHalf]⟩,
   C9_seeded_init_deterministic_and_bounded rHalf rHalf 1 1 1 1 1
     (fun _ => rfl) (by norm_num)
     (fun _ => ⟨by norm_num [rHalf], by norm_num [rHalf]⟩)⟩

end

end RNAC.Model
